import Mathlib

/-!
Verification of the TFTP client in server.py.

The client has two sessions: get_file (download: RRQ then a DATA/ACK receive
loop) and put_file (upload: WRQ then a DATA/ACK send loop).  We embed both
loops as functions over an explicit list of network input events (a received
datagram with its source address, or a socket timeout), producing a result,
the final local-file state for downloads, and a trace of the observable
actions (file writes, packets sent, messages printed).

Bytes are modelled as natural numbers; struct.pack with the signed 16-bit
format h is modelled by pack_hh, which fails (returns none, standing for an
uncaught struct.error) exactly when a field exceeds 32767, as CPython does.
recvfrom(516) truncates the datagram to 516 bytes, modelled by List.take 516.
-/

/-- Network addresses (host, port pairs in the source) are abstracted to
natural numbers; only identity of addresses matters to the client. -/
abbrev Addr := Nat

def BLOCK_SIZE : Nat := 512

def OPCODE_RRQ : Nat := 1
def OPCODE_WRQ : Nat := 2
def OPCODE_DATA : Nat := 3
def OPCODE_ACK : Nat := 4
def OPCODE_ERROR : Nat := 5

/-- The ERROR_CODE dict of server.py: a partial map from error codes to
messages.  A lookup of an undefined code raises KeyError in Python, which
the sessions do not catch; that is the none case here. -/
def ERROR_CODE : Nat → Option String
  | 0 => some "Not defined, see error message (if any)."
  | 1 => some "File not found."
  | 2 => some "Access violation."
  | 3 => some "Disk full or allocation exceeded."
  | 4 => some "Illegal TFTP operation."
  | 5 => some "Unknown transfer ID."
  | 6 => some "File already exists."
  | 7 => some "No such user."
  | _ => none

/-- int.from_bytes(bs, big) on a byte string of any length. -/
def fromBytesBE (l : List Nat) : Nat :=
  l.foldl (fun a b => a * 256 + b) 0

/-- struct.pack with format >hh on non-negative arguments: succeeds with the
four big-endian bytes when both fields fit a signed 16-bit integer
(value at most 32767), and raises struct.error (none) otherwise. -/
def pack_hh (a b : Nat) : Option (List Nat) :=
  if a ≤ 32767 ∧ b ≤ 32767 then some [a / 256, a % 256, b / 256, b % 256] else none

/-- The bytes built by send_ack: pack(>hh, OPCODE[ACK], block_num). -/
def ack_message (block_num : Nat) : Option (List Nat) :=
  pack_hh OPCODE_ACK block_num

/-- The bytes of a DATA packet built by put_file:
pack(>hh . len . s, OPCODE[DATA], block_number + 1, file_block). -/
def data_message (block_num : Nat) (payload : List Nat) : Option (List Nat) :=
  (pack_hh OPCODE_DATA block_num).map (fun h => h ++ payload)

/-- One network input: either a datagram delivered to the socket together
with its source address, or expiry of the 5-second receive timeout. -/
inductive InEvent where
  | pkt (raw : List Nat) (src : Addr)
  | timeout
deriving DecidableEq

/-- data[:2] of the received datagram, as int.from_bytes reads it;
recvfrom(516) truncates the datagram first. -/
def decodeOp (raw : List Nat) : Nat :=
  fromBytesBE ((raw.take 516).take 2)

/-- data[2:4] of the received datagram (block number or error code). -/
def decodeNum (raw : List Nat) : Nat :=
  fromBytesBE (((raw.take 516).drop 2).take 2)

/-- data[4:] of the received datagram: the DATA payload. -/
def payloadOf (raw : List Nat) : List Nat :=
  (raw.take 516).drop 4

/-! ## Download session (get_file) -/

/-- Observable actions of the download loop. -/
inductive GetItem where
  | wrote (payload : List Nat)
  | sentAck (n : Nat) (dst : Addr)
  | printedError (code : Nat) (msg : String)
  | printedTimeout
deriving DecidableEq

/-- Loop state of get_file: expected_block_number and the bytes written to
the open local file so far. -/
structure GetState where
  expected : Nat
  written : List Nat
deriving DecidableEq

/-- How a run of get_file ends.  completed is the break after a short block;
errorTermination is the break in the ERROR branch; timeoutExit is
sys.exit(1) in the timeout handler; crashed is an uncaught exception
(KeyError on an undefined error code, struct.error in send_ack);
outOfInput means the modelled event list was exhausted while the loop
was still waiting in recvfrom. -/
inductive GetResult where
  | completed
  | errorTermination (code : Nat)
  | timeoutExit
  | crashed
  | outOfInput
deriving DecidableEq

/-- Outcome of a download run: the result, the final state of the local file
(none once os.remove has deleted it), and the trace of actions. -/
structure GetOut where
  result : GetResult
  file : Option (List Nat)
  trace : List GetItem
deriving DecidableEq

/-- Continuation of one loop iteration: keep looping in a new state, or
leave the loop with a result and a final local-file state. -/
inductive GetCont where
  | next (st : GetState)
  | stop (r : GetResult) (f : Option (List Nat))
deriving DecidableEq

/-- One iteration of the get_file while loop, lines 52-81 of server.py:
receive, branch on the opcode; on a matching DATA write the payload, send an
ACK to the sender address and increment expected; break once the payload is
shorter than 512 bytes; on ERROR print the mapped message, delete the file
and break (KeyError for codes outside the dict); on timeout print, delete
the file and exit. -/
def getStep (st : GetState) : InEvent → List GetItem × GetCont
  | InEvent.timeout =>
      ([GetItem.printedTimeout], GetCont.stop GetResult.timeoutExit none)
  | InEvent.pkt raw src =>
      let opcode := decodeOp raw
      if opcode = OPCODE_DATA then
        let block_number := decodeNum raw
        let file_block := payloadOf raw
        if block_number = st.expected then
          match ack_message block_number with
          | none =>
              ([GetItem.wrote file_block],
                GetCont.stop GetResult.crashed (some (st.written ++ file_block)))
          | some _ =>
              if file_block.length < BLOCK_SIZE then
                ([GetItem.wrote file_block, GetItem.sentAck block_number src],
                  GetCont.stop GetResult.completed (some (st.written ++ file_block)))
              else
                ([GetItem.wrote file_block, GetItem.sentAck block_number src],
                  GetCont.next ⟨st.expected + 1, st.written ++ file_block⟩)
        else
          if file_block.length < BLOCK_SIZE then
            ([], GetCont.stop GetResult.completed (some st.written))
          else
            ([], GetCont.next st)
      else if opcode = OPCODE_ERROR then
        let error_code := decodeNum raw
        match ERROR_CODE error_code with
        | some msg =>
            ([GetItem.printedError error_code msg],
              GetCont.stop (GetResult.errorTermination error_code) none)
        | none =>
            ([], GetCont.stop GetResult.crashed (some st.written))
      else
        ([], GetCont.next st)

/-- The get_file while loop over a list of input events. -/
def getRun : List InEvent → GetState → GetOut
  | [], st => ⟨GetResult.outOfInput, some st.written, []⟩
  | ev :: rest, st =>
      match getStep st ev with
      | (items, GetCont.stop r f) => ⟨r, f, items⟩
      | (items, GetCont.next st') =>
          let o := getRun rest st'
          ⟨o.result, o.file, items ++ o.trace⟩

/-- get_file: after sending the RRQ the local file is opened with mode wb,
which creates it or truncates it to empty before any reply has arrived, so
the run never depends on initialLocal, the prior contents of a local file
of the requested name.  expected_block_number starts at 1. -/
def get_file (initialLocal : Option (List Nat)) (events : List InEvent) : GetOut :=
  getRun events ⟨1, []⟩

/-! ## Upload session (put_file) -/

/-- Observable actions of the upload loop: a DATA packet sent (block number
field, payload, destination address), a datagram received (decoded opcode,
decoded number, source address), or a receive timeout. -/
inductive PutItem where
  | sent (n : Nat) (payload : List Nat) (dst : Addr)
  | got (op : Nat) (n : Nat) (src : Addr)
  | gotTimeout
deriving DecidableEq

/-- Loop state of put_file: block_number and the read cursor of the open
local file (Python file.read advances it by the number of bytes returned). -/
structure PutState where
  blockNumber : Nat
  cursor : Nat
deriving DecidableEq

inductive PutResult where
  | completed
  | crashed
  | outOfInput
deriving DecidableEq

structure PutOut where
  result : PutResult
  trace : List PutItem
deriving DecidableEq

/-- file.read(BLOCK_SIZE) at a given cursor position. -/
def readChunk (file : List Nat) (cursor : Nat) : List Nat :=
  (file.drop cursor).take BLOCK_SIZE

/-- The trace item recorded for the reply received in one upload
iteration. -/
def evItem : InEvent → PutItem
  | InEvent.timeout => PutItem.gotTimeout
  | InEvent.pkt raw src => PutItem.got (decodeOp raw) (decodeNum raw) src

/-- The acceptance test of put_file line 106: the reply parses to opcode
ACK and block number block_number + 1. -/
def acceptsAck (block_number : Nat) : InEvent → Bool
  | InEvent.timeout => false
  | InEvent.pkt raw _ =>
      decide (decodeOp raw = OPCODE_ACK ∧ decodeNum raw = block_number + 1)

/-- The put_file while loop, lines 96-116 of server.py: read a chunk,
pack a DATA packet numbered block_number + 1 (struct.error, crashed, if that
number exceeds 32767), send it to server_address, wait for a reply;
a matching ACK advances block_number, anything else (wrong number, wrong
opcode, timeout) only logs; the loop breaks after the iteration whose
chunk was shorter than 512 bytes, whatever the reply was. -/
def putRun (file : List Nat) (server_address : Addr) :
    List InEvent → PutState → PutOut
  | [], st =>
      match data_message (st.blockNumber + 1) (readChunk file st.cursor) with
      | none => ⟨PutResult.crashed, []⟩
      | some _ =>
          ⟨PutResult.outOfInput,
            [PutItem.sent (st.blockNumber + 1) (readChunk file st.cursor) server_address]⟩
  | ev :: rest, st =>
      match data_message (st.blockNumber + 1) (readChunk file st.cursor) with
      | none => ⟨PutResult.crashed, []⟩
      | some _ =>
          let file_block := readChunk file st.cursor
          let items := [PutItem.sent (st.blockNumber + 1) file_block server_address, evItem ev]
          let st' : PutState :=
            ⟨if acceptsAck st.blockNumber ev then st.blockNumber + 1 else st.blockNumber,
              st.cursor + file_block.length⟩
          if file_block.length < BLOCK_SIZE then
            ⟨PutResult.completed, items⟩
          else
            let o := putRun file server_address rest st'
            ⟨o.result, items ++ o.trace⟩

/-- put_file: after the existence check and the WRQ, the loop starts with
block_number = 0 and the read cursor at the start of the file. -/
def put_file (file : List Nat) (server_address : Addr) (events : List InEvent) : PutOut :=
  putRun file server_address events ⟨0, 0⟩

/-! ## Concrete packets and files used by witnesses and counterexamples -/

/-- A DATA packet as a well-formed peer would send it: big-endian opcode 3,
big-endian block number, payload. -/
def dataPacket (n : Nat) (p : List Nat) : List Nat :=
  0 :: OPCODE_DATA :: n / 256 :: n % 256 :: p

/-- An ACK packet as the server would send it. -/
def ackPacket (n : Nat) : List Nat :=
  [0, OPCODE_ACK, n / 256, n % 256]

/-- An ERROR packet header (the message tail is irrelevant to the client,
which only reads bytes 2:4). -/
def errPacket (c : Nat) : List Nat :=
  [0, OPCODE_ERROR, c / 256, c % 256]

def full512 : List Nat := List.replicate 512 0

def file512 : List Nat := List.replicate 512 3

def file1024 : List Nat := List.replicate 1024 7

/-- k consecutive full-size DATA packets numbered s, s+1, ... from one
address. -/
def fullEvents (a : Addr) : Nat → Nat → List InEvent
  | _, 0 => []
  | s, k + 1 => InEvent.pkt (dataPacket s full512) a :: fullEvents a (s + 1) k

/-! ## Decoding lemmas -/

lemma fromBytesBE_pair (n : Nat) : fromBytesBE [n / 256, n % 256] = n := by
  simp [fromBytesBE, List.foldl]
  omega

lemma take516_dataPacket (n : Nat) (p : List Nat) :
    (dataPacket n p).take 516 = 0 :: OPCODE_DATA :: n / 256 :: n % 256 :: p.take 512 :=
  rfl

lemma decodeOp_dataPacket (n : Nat) (p : List Nat) :
    decodeOp (dataPacket n p) = OPCODE_DATA := rfl

lemma decodeNum_dataPacket (n : Nat) (p : List Nat) :
    decodeNum (dataPacket n p) = n := by
  show fromBytesBE [n / 256, n % 256] = n
  exact fromBytesBE_pair n

lemma payloadOf_dataPacket (n : Nat) (p : List Nat) (hp : p.length ≤ 512) :
    payloadOf (dataPacket n p) = p := by
  show p.take 512 = p
  exact List.take_of_length_le hp

lemma decodeOp_errPacket (c : Nat) : decodeOp (errPacket c) = OPCODE_ERROR := rfl

lemma decodeNum_errPacket (c : Nat) : decodeNum (errPacket c) = c := by
  show fromBytesBE [c / 256, c % 256] = c
  exact fromBytesBE_pair c

lemma ack_message_eq_none_iff (n : Nat) : ack_message n = none ↔ 32767 < n := by
  unfold ack_message pack_hh OPCODE_ACK
  by_cases h : n ≤ 32767 <;> simp [h] <;> omega

lemma data_message_eq_none_iff (n : Nat) (p : List Nat) :
    data_message n p = none ↔ 32767 < n := by
  unfold data_message pack_hh OPCODE_DATA
  by_cases h : n ≤ 32767 <;> simp [h] <;> omega

lemma ack_message_isSome (n : Nat) (h : n ≤ 32767) : ack_message n = some [0, 4, n / 256, n % 256] := by
  unfold ack_message pack_hh OPCODE_ACK
  simp [h]

/-! ## Unfolding lemmas for the download loop -/

lemma getRun_cons_stop {st : GetState} {ev : InEvent} {items : List GetItem}
    {r : GetResult} {f : Option (List Nat)} (rest : List InEvent)
    (h : getStep st ev = (items, GetCont.stop r f)) :
    getRun (ev :: rest) st = ⟨r, f, items⟩ := by
  simp [getRun, h]

lemma getRun_cons_next {st st' : GetState} {ev : InEvent} {items : List GetItem}
    (rest : List InEvent) (h : getStep st ev = (items, GetCont.next st')) :
    getRun (ev :: rest) st =
      ⟨(getRun rest st').result, (getRun rest st').file, items ++ (getRun rest st').trace⟩ := by
  simp [getRun, h]

lemma full512_length : full512.length = 512 := by
  unfold full512
  exact List.length_replicate 512 0

/-- A matched DATA packet with a full payload and an encodable block number:
write, ACK to the sender address, advance expected by exactly one. -/
lemma getStep_full_matched (e : Nat) (w : List Nat) (src : Addr) (he : e ≤ 32767) :
    getStep ⟨e, w⟩ (InEvent.pkt (dataPacket e full512) src) =
      ([GetItem.wrote full512, GetItem.sentAck e src],
        GetCont.next ⟨e + 1, w ++ full512⟩) := by
  simp only [getStep, decodeOp_dataPacket, decodeNum_dataPacket,
    payloadOf_dataPacket e full512 (by rw [full512_length]), ack_message_isSome e he]
  simp [full512_length, BLOCK_SIZE]

/-- A matched DATA packet whose block number does not fit the signed 16-bit
pack format: the payload is written, then send_ack raises struct.error. -/
lemma getStep_matched_overflow (e : Nat) (w p : List Nat) (src : Addr)
    (he : 32767 < e) (hp : p.length ≤ 512) :
    getStep ⟨e, w⟩ (InEvent.pkt (dataPacket e p) src) =
      ([GetItem.wrote p], GetCont.stop GetResult.crashed (some (w ++ p))) := by
  have hnone : ack_message e = none := (ack_message_eq_none_iff e).mpr he
  simp only [getStep, decodeOp_dataPacket, decodeNum_dataPacket,
    payloadOf_dataPacket e p hp, hnone]
  simp

/-- Processing k consecutive matched full-size blocks just advances the
state: expected grows by exactly one per block, so after blocks s..s+k-1
the loop continues on the remaining events with expected = s + k. -/
lemma getRun_fullEvents (a : Addr) :
    ∀ (k s : Nat) (w : List Nat) (rest : List InEvent), s + k ≤ 32768 →
      ∃ w', (getRun (fullEvents a s k ++ rest) ⟨s, w⟩).result =
        (getRun rest ⟨s + k, w'⟩).result := by
  intro k
  induction k with
  | zero =>
      intro s w rest _
      exact ⟨w, rfl⟩
  | succ k ih =>
      intro s w rest hk
      have hs : s ≤ 32767 := by omega
      have hstep := getStep_full_matched s w a hs
      rw [show fullEvents a s (k + 1) ++ rest =
            InEvent.pkt (dataPacket s full512) a :: (fullEvents a (s + 1) k ++ rest) from rfl,
        getRun_cons_next (fullEvents a (s + 1) k ++ rest) hstep]
      obtain ⟨w', hw'⟩ := ih (s + 1) (w ++ full512) rest (by omega)
      refine ⟨w', ?_⟩
      rw [hw']
      have : s + 1 + k = s + (k + 1) := by omega
      rw [this]

/-- Receiving the matched DATA block numbered 32768 (any payload size):
the payload is written, then the ACK encoding raises struct.error. -/
lemma getRun_block_32768 (w p : List Nat) (src : Addr) (rest : List InEvent)
    (hp : p.length ≤ 512) :
    getRun (InEvent.pkt (dataPacket 32768 p) src :: rest) ⟨32768, w⟩ =
      ⟨GetResult.crashed, some (w ++ p), [GetItem.wrote p]⟩ :=
  getRun_cons_stop rest (getStep_matched_overflow 32768 w p src (by omega) hp)

/-! ## ACK numbers sent by the download loop -/

/-- The block numbers of the ACKs in a download trace, in order. -/
def ackNums (tr : List GetItem) : List Nat :=
  tr.filterMap fun it =>
    match it with
    | GetItem.sentAck n _ => some n
    | _ => none

lemma ackNums_append (l1 l2 : List GetItem) :
    ackNums (l1 ++ l2) = ackNums l1 ++ ackNums l2 :=
  List.filterMap_append l1 l2 _


/-- Case analysis of one download iteration as far as ACK emission and the
expected counter are concerned: a step either emits no ACK and keeps
expected unchanged or stops, or emits exactly the one ACK numbered expected
and continues with expected + 1 or stops. -/
lemma getStep_ack_disj (e : Nat) (w : List Nat) (ev : InEvent) :
    (∃ items st2, getStep ⟨e, w⟩ ev = (items, GetCont.next st2) ∧
        ackNums items = [] ∧ st2.expected = e)
  ∨ (∃ items r f, getStep ⟨e, w⟩ ev = (items, GetCont.stop r f) ∧ ackNums items = [])
  ∨ (∃ items st2, getStep ⟨e, w⟩ ev = (items, GetCont.next st2) ∧
        ackNums items = [e] ∧ st2.expected = e + 1)
  ∨ (∃ items r f, getStep ⟨e, w⟩ ev = (items, GetCont.stop r f) ∧ ackNums items = [e]) := by
  cases ev with
  | timeout =>
      exact Or.inr (Or.inl ⟨_, _, _, rfl, rfl⟩)
  | pkt raw src =>
      by_cases hop : decodeOp raw = OPCODE_DATA
      · by_cases hbn : decodeNum raw = e
        · cases hack : ack_message e with
          | none =>
              have hstep : getStep ⟨e, w⟩ (InEvent.pkt raw src) =
                  ([GetItem.wrote (payloadOf raw)],
                    GetCont.stop GetResult.crashed (some (w ++ payloadOf raw))) := by
                simp [getStep, hop, hbn, hack]
              exact Or.inr (Or.inl ⟨_, _, _, hstep, rfl⟩)
          | some msg =>
              by_cases hshort : (payloadOf raw).length < BLOCK_SIZE
              · have hstep : getStep ⟨e, w⟩ (InEvent.pkt raw src) =
                    ([GetItem.wrote (payloadOf raw), GetItem.sentAck e src],
                      GetCont.stop GetResult.completed (some (w ++ payloadOf raw))) := by
                  simp [getStep, hop, hbn, hack, hshort]
                exact Or.inr (Or.inr (Or.inr ⟨_, _, _, hstep, rfl⟩))
              · have hstep : getStep ⟨e, w⟩ (InEvent.pkt raw src) =
                    ([GetItem.wrote (payloadOf raw), GetItem.sentAck e src],
                      GetCont.next ⟨e + 1, w ++ payloadOf raw⟩) := by
                  simp [getStep, hop, hbn, hack, hshort]
                exact Or.inr (Or.inr (Or.inl ⟨_, _, hstep, rfl, rfl⟩))
        · by_cases hshort : (payloadOf raw).length < BLOCK_SIZE
          · have hstep : getStep ⟨e, w⟩ (InEvent.pkt raw src) =
                ([], GetCont.stop GetResult.completed (some w)) := by
              simp [getStep, hop, hbn, hshort]
            exact Or.inr (Or.inl ⟨_, _, _, hstep, rfl⟩)
          · have hstep : getStep ⟨e, w⟩ (InEvent.pkt raw src) =
                ([], GetCont.next ⟨e, w⟩) := by
              simp [getStep, hop, hbn, hshort]
            exact Or.inl ⟨_, _, hstep, rfl, rfl⟩
      · by_cases herr : decodeOp raw = OPCODE_ERROR
        · cases hec : ERROR_CODE (decodeNum raw) with
          | none =>
              have hstep : getStep ⟨e, w⟩ (InEvent.pkt raw src) =
                  ([], GetCont.stop GetResult.crashed (some w)) := by
                simp [getStep, hop, herr, hec, OPCODE_DATA, OPCODE_ERROR]
              exact Or.inr (Or.inl ⟨_, _, _, hstep, rfl⟩)
          | some msg =>
              have hstep : getStep ⟨e, w⟩ (InEvent.pkt raw src) =
                  ([GetItem.printedError (decodeNum raw) msg],
                    GetCont.stop (GetResult.errorTermination (decodeNum raw)) none) := by
                simp [getStep, hop, herr, hec, OPCODE_DATA, OPCODE_ERROR]
              exact Or.inr (Or.inl ⟨_, _, _, hstep, rfl⟩)
        · have hstep : getStep ⟨e, w⟩ (InEvent.pkt raw src) =
              ([], GetCont.next ⟨e, w⟩) := by
            simp [getStep, hop, herr]
          exact Or.inl ⟨_, _, hstep, rfl, rfl⟩

/-- Whatever the input events, the ACKs sent by the download loop from a
state expecting block e are numbered exactly e, e+1, ..., e+k-1 for some k:
consecutive, with no gaps and no repeats. -/
lemma getRun_ackNums : ∀ (evs : List InEvent) (e : Nat) (w : List Nat),
    ∃ k, ackNums (getRun evs ⟨e, w⟩).trace = List.range' e k := by
  intro evs
  induction evs with
  | nil => exact fun e w => ⟨0, rfl⟩
  | cons ev rest ih =>
      intro e w
      rcases getStep_ack_disj e w ev with ⟨items, st2, hstep, hno, hexp⟩ |
        ⟨items, r, f, hstep, hno⟩ | ⟨items, st2, hstep, hone, hexp⟩ |
        ⟨items, r, f, hstep, hone⟩
      · obtain ⟨e2, w2⟩ := st2
        have hexp2 : e2 = e := hexp
        rw [getRun_cons_next rest hstep, hexp2]
        obtain ⟨k, hk⟩ := ih e w2
        exact ⟨k, by rw [ackNums_append, hno, hk, List.nil_append]⟩
      · rw [getRun_cons_stop rest hstep]
        exact ⟨0, by simpa using hno⟩
      · obtain ⟨e2, w2⟩ := st2
        have hexp2 : e2 = e + 1 := hexp
        rw [getRun_cons_next rest hstep, hexp2]
        obtain ⟨k, hk⟩ := ih (e + 1) w2
        exact ⟨k + 1, by rw [ackNums_append, hone, hk, List.range'_succ]; rfl⟩
      · rw [getRun_cons_stop rest hstep]
        exact ⟨1, by simpa using hone⟩

/-! ## Unfolding lemmas for the upload loop -/

lemma data_message_eq_some (n : Nat) (p : List Nat) (h : n ≤ 32767) :
    data_message n p = some ([0, 3, n / 256, n % 256] ++ p) := by
  unfold data_message pack_hh OPCODE_DATA
  simp [h]

lemma putRun_crashed (file : List Nat) (sa : Addr) (evs : List InEvent) (st : PutState)
    (h : data_message (st.blockNumber + 1) (readChunk file st.cursor) = none) :
    putRun file sa evs st = ⟨PutResult.crashed, []⟩ := by
  cases evs <;> simp [putRun, h]

lemma putRun_nil (file : List Nat) (sa : Addr) (st : PutState)
    (h : st.blockNumber + 1 ≤ 32767) :
    putRun file sa [] st =
      ⟨PutResult.outOfInput,
        [PutItem.sent (st.blockNumber + 1) (readChunk file st.cursor) sa]⟩ := by
  simp [putRun, data_message_eq_some _ _ h]

lemma putRun_cons_short (file : List Nat) (sa : Addr) (ev : InEvent)
    (rest : List InEvent) (st : PutState)
    (h : st.blockNumber + 1 ≤ 32767)
    (hshort : (readChunk file st.cursor).length < BLOCK_SIZE) :
    putRun file sa (ev :: rest) st =
      ⟨PutResult.completed,
        [PutItem.sent (st.blockNumber + 1) (readChunk file st.cursor) sa, evItem ev]⟩ := by
  simp [putRun, data_message_eq_some _ _ h, hshort]

lemma putRun_cons_full (file : List Nat) (sa : Addr) (ev : InEvent)
    (rest : List InEvent) (st : PutState)
    (h : st.blockNumber + 1 ≤ 32767)
    (hfull : ¬ (readChunk file st.cursor).length < BLOCK_SIZE) :
    putRun file sa (ev :: rest) st =
      ⟨(putRun file sa rest
          ⟨if acceptsAck st.blockNumber ev then st.blockNumber + 1 else st.blockNumber,
            st.cursor + (readChunk file st.cursor).length⟩).result,
        PutItem.sent (st.blockNumber + 1) (readChunk file st.cursor) sa :: evItem ev ::
          (putRun file sa rest
            ⟨if acceptsAck st.blockNumber ev then st.blockNumber + 1 else st.blockNumber,
              st.cursor + (readChunk file st.cursor).length⟩).trace⟩ := by
  simp [putRun, data_message_eq_some _ _ h, hfull]

/-- Whenever the DATA header encodes, the first trace entry of the loop is
the DATA packet for the current state: block number field blockNumber + 1,
payload read at the current cursor. -/
lemma putRun_trace_head (file : List Nat) (sa : Addr) (evs : List InEvent)
    (st : PutState) (h : st.blockNumber + 1 ≤ 32767) :
    (putRun file sa evs st).trace.head? =
      some (PutItem.sent (st.blockNumber + 1) (readChunk file st.cursor) sa) := by
  cases evs with
  | nil =>
      rw [putRun_nil file sa st h]
      rfl
  | cons ev rest =>
      by_cases hshort : (readChunk file st.cursor).length < BLOCK_SIZE
      · rw [putRun_cons_short file sa ev rest st h hshort]
        rfl
      · rw [putRun_cons_full file sa ev rest st h hshort]
        rfl

/-- Every DATA packet of an upload run is sent to the configured server
address: the source addresses of the replies are never used as a
destination. -/
lemma putRun_sent_dst (file : List Nat) (sa : Addr) :
    ∀ (evs : List InEvent) (st : PutState) (n : Nat) (p : List Nat) (d : Addr),
      PutItem.sent n p d ∈ (putRun file sa evs st).trace → d = sa := by
  intro evs
  induction evs with
  | nil =>
      intro st n p d hmem
      by_cases h : st.blockNumber + 1 ≤ 32767
      · rw [putRun_nil file sa st h] at hmem
        simp at hmem
        exact hmem.2.2
      · rw [putRun_crashed file sa [] st
          ((data_message_eq_none_iff _ _).mpr (by omega))] at hmem
        simp at hmem
  | cons ev rest ih =>
      intro st n p d hmem
      by_cases h : st.blockNumber + 1 ≤ 32767
      · by_cases hshort : (readChunk file st.cursor).length < BLOCK_SIZE
        · rw [putRun_cons_short file sa ev rest st h hshort] at hmem
          simp at hmem
          rcases hmem with ⟨_, _, hd⟩ | hei
          · exact hd
          · cases ev <;> simp [evItem] at hei
        · rw [putRun_cons_full file sa ev rest st h hshort] at hmem
          simp at hmem
          rcases hmem with ⟨_, _, hd⟩ | hei | htail
          · exact hd
          · cases ev <;> simp [evItem] at hei
          · exact ih _ n p d htail
      · rw [putRun_crashed file sa (ev :: rest) st
          ((data_message_eq_none_iff _ _).mpr (by omega))] at hmem
        simp at hmem

/-- The upload loop reaches completed only via the break after a short
chunk, so a completed run always sent a DATA packet with a payload shorter
than 512 bytes. -/
lemma putRun_completed_short (file : List Nat) (sa : Addr) :
    ∀ (evs : List InEvent) (st : PutState),
      (putRun file sa evs st).result = PutResult.completed →
      ∃ n p d, PutItem.sent n p d ∈ (putRun file sa evs st).trace ∧
        p.length < BLOCK_SIZE := by
  intro evs
  induction evs with
  | nil =>
      intro st hres
      by_cases h : st.blockNumber + 1 ≤ 32767
      · rw [putRun_nil file sa st h] at hres
        simp at hres
      · rw [putRun_crashed file sa [] st
          ((data_message_eq_none_iff _ _).mpr (by omega))] at hres
        simp at hres
  | cons ev rest ih =>
      intro st hres
      by_cases h : st.blockNumber + 1 ≤ 32767
      · by_cases hshort : (readChunk file st.cursor).length < BLOCK_SIZE
        · rw [putRun_cons_short file sa ev rest st h hshort]
          exact ⟨st.blockNumber + 1, readChunk file st.cursor, sa, by simp, hshort⟩
        · rw [putRun_cons_full file sa ev rest st h hshort] at hres ⊢
          simp only at hres
          obtain ⟨n, p, d, hmem, hp⟩ := ih _ hres
          exact ⟨n, p, d, by simp; right; right; exact hmem, hp⟩
      · rw [putRun_crashed file sa (ev :: rest) st
          ((data_message_eq_none_iff _ _).mpr (by omega))] at hres
        simp at hres

/-! ## Lock-step property of the upload trace -/

/-- Single-pass check of an upload trace: every DATA packet sent with a
block number field of at least 2 must be preceded by a received packet of
opcode ACK carrying the previous number.  The accumulator collects the
numbers of all ACK-opcode packets received so far. -/
def lockstepCheck (acks : List Nat) : List PutItem → Bool
  | [] => true
  | PutItem.sent m _ _ :: r =>
      (decide (m ≤ 1) || decide (m - 1 ∈ acks)) && lockstepCheck acks r
  | PutItem.got op n _ :: r =>
      if op = OPCODE_ACK then lockstepCheck (n :: acks) r else lockstepCheck acks r
  | PutItem.gotTimeout :: r => lockstepCheck acks r

/-- Invariant proof: the upload loop only ever sends the DATA packet
numbered blockNumber + 1, and blockNumber grows only when the matching ACK
has been received, so the whole trace passes lockstepCheck. -/
lemma putRun_lockstep (file : List Nat) (sa : Addr) :
    ∀ (evs : List InEvent) (st : PutState) (acks : List Nat),
      (st.blockNumber = 0 ∨ st.blockNumber ∈ acks) →
      lockstepCheck acks (putRun file sa evs st).trace = true := by
  intro evs
  induction evs with
  | nil =>
      intro st acks hB
      by_cases h : st.blockNumber + 1 ≤ 32767
      · rw [putRun_nil file sa st h]
        simp [lockstepCheck]
        rcases hB with h0 | hmem
        · left; omega
        · right; simpa using hmem
      · rw [putRun_crashed file sa [] st
          ((data_message_eq_none_iff _ _).mpr (by omega))]
        rfl
  | cons ev rest ih =>
      intro st acks hB
      by_cases h : st.blockNumber + 1 ≤ 32767
      · have hcond : (decide (st.blockNumber + 1 ≤ 1) ||
            decide (st.blockNumber + 1 - 1 ∈ acks)) = true := by
          simp
          rcases hB with h0 | hmem
          · left; omega
          · right; simpa using hmem
        by_cases hshort : (readChunk file st.cursor).length < BLOCK_SIZE
        · rw [putRun_cons_short file sa ev rest st h hshort]
          cases ev with
          | timeout =>
              simp [lockstepCheck, evItem, hcond]
              exact hB
          | pkt raw src =>
              simp only [lockstepCheck, evItem, hcond, Bool.true_and]
              by_cases hop : decodeOp raw = OPCODE_ACK <;> simp [lockstepCheck, hop]
        · rw [putRun_cons_full file sa ev rest st h hshort]
          cases ev with
          | timeout =>
              have hacc : acceptsAck st.blockNumber InEvent.timeout = false := rfl
              simp only [lockstepCheck, evItem, hcond, Bool.true_and, hacc, if_neg]
              simp only [Bool.false_eq_true, if_false]
              exact ih _ acks hB
          | pkt raw src =>
              by_cases hop : decodeOp raw = OPCODE_ACK
              · by_cases hn : decodeNum raw = st.blockNumber + 1
                · have hacc : acceptsAck st.blockNumber (InEvent.pkt raw src) = true := by
                    simp [acceptsAck, hop, hn]
                  simp only [lockstepCheck, evItem, hcond, Bool.true_and, hacc,
                    if_true, hop, if_pos]
                  exact ih _ (decodeNum raw :: acks) (Or.inr (by simp [hn]))
                · have hacc : acceptsAck st.blockNumber (InEvent.pkt raw src) = false := by
                    simp [acceptsAck, hop, hn]
                  simp only [lockstepCheck, evItem, hcond, Bool.true_and, hacc, hop, if_pos]
                  simp only [Bool.false_eq_true, if_false]
                  refine ih _ (decodeNum raw :: acks) ?_
                  rcases hB with h0 | hmem
                  · exact Or.inl h0
                  · exact Or.inr (List.mem_cons_of_mem _ hmem)
              · have hacc : acceptsAck st.blockNumber (InEvent.pkt raw src) = false := by
                  simp [acceptsAck, hop]
                simp only [lockstepCheck, evItem, hcond, Bool.true_and, hacc, hop, if_neg,
                  Bool.false_eq_true, if_false]
                exact ih _ acks hB
      · rw [putRun_crashed file sa (ev :: rest) st
          ((data_message_eq_none_iff _ _).mpr (by omega))]
        rfl

/-- A reply that put_file does not accept: a timeout, a packet whose opcode
is not ACK, or an ACK whose number is not block_number + 1. -/
def rejectedReply (block_number : Nat) : InEvent → Prop
  | InEvent.timeout => True
  | InEvent.pkt raw _ =>
      ¬(decodeOp raw = OPCODE_ACK ∧ decodeNum raw = block_number + 1)

lemma acceptsAck_eq_false (B : Nat) (ev : InEvent) (h : rejectedReply B ev) :
    acceptsAck B ev = false := by
  cases ev with
  | timeout => rfl
  | pkt raw src =>
      have h2 : ¬(decodeOp raw = OPCODE_ACK ∧ decodeNum raw = B + 1) := h
      simp [acceptsAck, h2]

/-- Stopping values of one download iteration: every exit of the loop either
deletes the local file, or is the completed break, or is a crash. -/
lemma getStep_stop_cases (st : GetState) (ev : InEvent) (items : List GetItem)
    (r : GetResult) (f : Option (List Nat))
    (h : getStep st ev = (items, GetCont.stop r f)) :
    f = none ∨ r = GetResult.completed ∨ r = GetResult.crashed := by
  cases ev with
  | timeout =>
      simp [getStep] at h
      exact Or.inl h.2.2.symm
  | pkt raw src =>
      by_cases hop : decodeOp raw = OPCODE_DATA
      · by_cases hbn : decodeNum raw = st.expected
        · cases hack : ack_message st.expected with
          | none =>
              simp [getStep, hop, hbn, hack] at h
              exact Or.inr (Or.inr h.2.1.symm)
          | some msg =>
              by_cases hshort : (payloadOf raw).length < BLOCK_SIZE
              · simp [getStep, hop, hbn, hack, hshort] at h
                exact Or.inr (Or.inl h.2.1.symm)
              · simp [getStep, hop, hbn, hack, hshort] at h
        · by_cases hshort : (payloadOf raw).length < BLOCK_SIZE
          · simp [getStep, hop, hbn, hshort] at h
            exact Or.inr (Or.inl h.2.1.symm)
          · simp [getStep, hop, hbn, hshort] at h
      · by_cases herr : decodeOp raw = OPCODE_ERROR
        · cases hec : ERROR_CODE (decodeNum raw) with
          | none =>
              simp [getStep, hop, herr, hec, OPCODE_DATA, OPCODE_ERROR] at h
              exact Or.inr (Or.inr h.2.1.symm)
          | some msg =>
              simp [getStep, hop, herr, hec, OPCODE_DATA, OPCODE_ERROR] at h
              exact Or.inl h.2.2.symm
        · simp [getStep, hop, herr] at h

/-- On the failure exits of the download loop (timeout, ERROR with a
defined code) the local file has been removed. -/
lemma getRun_failure_file_none : ∀ (evs : List InEvent) (st : GetState),
    ((getRun evs st).result = GetResult.timeoutExit ∨
      ∃ c, (getRun evs st).result = GetResult.errorTermination c) →
    (getRun evs st).file = none := by
  intro evs
  induction evs with
  | nil =>
      intro st hres
      rcases hres with h | ⟨c, h⟩ <;> simp [getRun] at h
  | cons ev rest ih =>
      intro st hres
      rcases hstep : getStep st ev with ⟨items, cont⟩
      cases cont with
      | next st2 =>
          rw [getRun_cons_next rest hstep] at hres ⊢
          exact ih st2 hres
      | stop r f =>
          rw [getRun_cons_stop rest hstep] at hres ⊢
          rcases getStep_stop_cases st ev items r f hstep with hf | hc | hc
          · exact hf
          · exfalso
            rcases hres with h | ⟨c, h⟩
            · have h2 : r = GetResult.timeoutExit := h
              rw [hc] at h2
              simp at h2
            · have h2 : r = GetResult.errorTermination c := h
              rw [hc] at h2
              simp at h2
          · exfalso
            rcases hres with h | ⟨c, h⟩
            · have h2 : r = GetResult.timeoutExit := h
              rw [hc] at h2
              simp at h2
            · have h2 : r = GetResult.errorTermination c := h
              rw [hc] at h2
              simp at h2

/-! ## Claims -/

/-- C1: the claim says a DATA payload shorter than 512 bytes always makes
get_file exit its loop successfully.  The code intends this, but send_ack
packs the block number with the signed format h, so the matched final block
of a download that has reached block number 32768 is written and then the
ACK encoding raises struct.error: the loop ends in a crash, not in the
completed break.  This theorem evaluates the download at that failing
input: 32767 full blocks numbered 1..32767 followed by the empty final
DATA block numbered 32768. -/
theorem download_short_block_32768_crashes :
    (get_file none
        (fullEvents 0 1 32767 ++ [InEvent.pkt (dataPacket 32768 []) 0])).result =
      GetResult.crashed := by
  unfold get_file
  obtain ⟨w', hw'⟩ :=
    getRun_fullEvents 0 32767 1 [] [InEvent.pkt (dataPacket 32768 []) 0] (by omega)
  rw [hw', show (1 : Nat) + 32767 = 32768 from rfl,
    getRun_block_32768 w' [] 0 [] (by simp)]

set_option maxRecDepth 8192 in
/-- C2 counterexample: uploading a 512-byte file, the client receives
ACK(1), sends the trailing empty DATA(2), then the wait for its ACK times
out — and the loop still breaks with completion.  The transfer therefore
does not terminate only after the short block was successfully ACKed. -/
theorem upload_completes_without_final_ack :
    putRun file512 9 [InEvent.pkt (ackPacket 1) 2, InEvent.timeout] ⟨0, 0⟩ =
      ⟨PutResult.completed,
        [PutItem.sent 1 file512 9, PutItem.got 4 1 2, PutItem.sent 2 [] 9,
          PutItem.gotTimeout]⟩ := rfl

/-- C2 amended: the upload loop terminates exactly after the iteration
whose chunk read was shorter than 512 bytes has completed its single
reply-wait, whatever that reply was (matching ACK, wrong ACK, other opcode,
or timeout); and conversely a completed run always sent a DATA block with a
payload shorter than 512 bytes. -/
theorem put_short_block_always_terminates :
    (∀ (file : List Nat) (sa : Addr) (st : PutState) (ev : InEvent)
        (rest : List InEvent),
        (readChunk file st.cursor).length < BLOCK_SIZE →
        st.blockNumber + 1 ≤ 32767 →
        (putRun file sa (ev :: rest) st).result = PutResult.completed)
  ∧ (∀ (file : List Nat) (sa : Addr) (events : List InEvent) (st : PutState),
        (putRun file sa events st).result = PutResult.completed →
        ∃ n p d, PutItem.sent n p d ∈ (putRun file sa events st).trace ∧
          p.length < BLOCK_SIZE) := by
  constructor
  · intro file sa st ev rest hshort hB
    rw [putRun_cons_short file sa ev rest st hB hshort]
  · exact putRun_completed_short

theorem put_short_block_always_terminates_witness :
    (readChunk [] 0).length < BLOCK_SIZE ∧ (0 : Nat) + 1 ≤ 32767 ∧
    (putRun [] 0 [InEvent.timeout] ⟨0, 0⟩).result = PutResult.completed :=
  ⟨by decide, by decide,
    put_short_block_always_terminates.1 [] 0 ⟨0, 0⟩ InEvent.timeout []
      (by decide) (by decide)⟩

set_option maxRecDepth 8192 in
/-- C3 counterexample: in an upload, the first valid reply (ACK(1)) arrives
from address 99, yet the next DATA packets are still sent to the configured
address 5: put_file never uses the reply address returned by recvfrom. -/
theorem upload_reply_address_ignored :
    (putRun file1024 5 [InEvent.pkt (ackPacket 1) 99, InEvent.timeout] ⟨0, 0⟩).trace =
      [PutItem.sent 1 (readChunk file1024 0) 5, PutItem.got 4 1 99,
        PutItem.sent 2 (readChunk file1024 512) 5, PutItem.gotTimeout,
        PutItem.sent 2 [] 5] := rfl

/-- C3 amended: the download loop addresses each ACK to the source address
of the DATA packet it acknowledges (so, when every server packet comes from
one ephemeral port, all ACKs go there), while the upload loop ignores reply
source addresses entirely and sends every DATA packet to the originally
configured server address. -/
theorem session_packet_destinations :
    (∀ (e : Nat) (w p : List Nat) (src : Addr) (rest : List InEvent),
        p.length ≤ BLOCK_SIZE → e ≤ 32767 →
        (getRun (InEvent.pkt (dataPacket e p) src :: rest) ⟨e, w⟩).trace.take 2 =
          [GetItem.wrote p, GetItem.sentAck e src])
  ∧ (∀ (file : List Nat) (sa : Addr) (events : List InEvent) (st : PutState)
        (n : Nat) (p : List Nat) (d : Addr),
        PutItem.sent n p d ∈ (putRun file sa events st).trace → d = sa) := by
  constructor
  · intro e w p src rest hp he
    have hbn : decodeNum (dataPacket e p) = e := decodeNum_dataPacket e p
    have hpl : payloadOf (dataPacket e p) = p :=
      payloadOf_dataPacket e p (by simpa [BLOCK_SIZE] using hp)
    by_cases hshort : p.length < BLOCK_SIZE
    · have hstep : getStep ⟨e, w⟩ (InEvent.pkt (dataPacket e p) src) =
          ([GetItem.wrote p, GetItem.sentAck e src],
            GetCont.stop GetResult.completed (some (w ++ p))) := by
        simp [getStep, decodeOp_dataPacket, hbn, hpl, ack_message_isSome e he, hshort]
      rw [getRun_cons_stop rest hstep]
      rfl
    · have hstep : getStep ⟨e, w⟩ (InEvent.pkt (dataPacket e p) src) =
          ([GetItem.wrote p, GetItem.sentAck e src],
            GetCont.next ⟨e + 1, w ++ p⟩) := by
        simp [getStep, decodeOp_dataPacket, hbn, hpl, ack_message_isSome e he, hshort]
      rw [getRun_cons_next rest hstep]
      rfl
  · exact fun file sa events => putRun_sent_dst file sa events

theorem session_packet_destinations_witness :
    ([7] : List Nat).length ≤ BLOCK_SIZE ∧ (1 : Nat) ≤ 32767 ∧
    (getRun [InEvent.pkt (dataPacket 1 [7]) 3] ⟨1, []⟩).trace.take 2 =
      [GetItem.wrote [7], GetItem.sentAck 1 3] :=
  ⟨by decide, by decide,
    session_packet_destinations.1 1 [] [7] 3 [] (by decide) (by decide)⟩

/-- C4 counterexample: an ERROR packet with the undefined code 8 makes the
download crash on the ERROR_CODE dict lookup before anything is printed and
before os.remove runs: no fallback message, and the partial file is not
deleted. -/
theorem undefined_error_code_no_fallback :
    get_file none [InEvent.pkt (errPacket 8) 0] =
      ⟨GetResult.crashed, some [], []⟩ := rfl

/-- C4 amended: an ERROR packet whose code is one of the eight defined ones
makes the download print the mapped catalog message, delete the partially
written file and terminate the transfer; an ERROR packet with any other
code crashes the session on the dict lookup (uncaught KeyError), printing
nothing and leaving the partially written file in place. -/
theorem error_packet_handling :
    (∀ (st : GetState) (rest : List InEvent) (c : Nat) (src : Addr) (m : String),
        ERROR_CODE c = some m →
        getRun (InEvent.pkt (errPacket c) src :: rest) st =
          ⟨GetResult.errorTermination c, none, [GetItem.printedError c m]⟩)
  ∧ (∀ (st : GetState) (rest : List InEvent) (c : Nat) (src : Addr),
        ERROR_CODE c = none →
        getRun (InEvent.pkt (errPacket c) src :: rest) st =
          ⟨GetResult.crashed, some st.written, []⟩) := by
  constructor
  · intro st rest c src m hm
    refine getRun_cons_stop rest ?_
    simp [getStep, decodeOp_errPacket, decodeNum_errPacket, hm,
      OPCODE_DATA, OPCODE_ERROR]
  · intro st rest c src hm
    refine getRun_cons_stop rest ?_
    simp [getStep, decodeOp_errPacket, decodeNum_errPacket, hm,
      OPCODE_DATA, OPCODE_ERROR]

theorem error_packet_handling_witness :
    ERROR_CODE 1 = some "File not found." ∧
    getRun [InEvent.pkt (errPacket 1) 7] ⟨1, []⟩ =
      ⟨GetResult.errorTermination 1, none,
        [GetItem.printedError 1 "File not found."]⟩ :=
  ⟨rfl, error_packet_handling.1 ⟨1, []⟩ [] 1 7 "File not found." rfl⟩

/-- C5: a receive timeout anywhere in the download makes the session print
the timeout message, delete the partially written file and exit with
failure immediately: the remaining events are never examined, so there is
no retry of any kind. -/
theorem timeout_deletes_file_and_exits :
    ∀ (st : GetState) (rest : List InEvent),
      getRun (InEvent.timeout :: rest) st =
        ⟨GetResult.timeoutExit, none, [GetItem.printedTimeout]⟩ :=
  fun st rest => rfl

/-- C6: when the reply to a DATA block is rejected (wrong-numbered ACK,
non-ACK opcode, or timeout), put_file neither advances the block number nor
re-sends the block: the read cursor has already moved, so the next
iteration sends the following 512-byte chunk of the file under the same
block number field blockNumber + 1. -/
theorem put_no_retransmit_reads_next_chunk :
    ∀ (file : List Nat) (sa : Addr) (B c : Nat) (ev : InEvent)
      (rest : List InEvent),
      (readChunk file c).length = BLOCK_SIZE → B + 1 ≤ 32767 →
      rejectedReply B ev →
      putRun file sa (ev :: rest) ⟨B, c⟩ =
        ⟨(putRun file sa rest ⟨B, c + BLOCK_SIZE⟩).result,
          PutItem.sent (B + 1) (readChunk file c) sa :: evItem ev ::
            (putRun file sa rest ⟨B, c + BLOCK_SIZE⟩).trace⟩
      ∧ (putRun file sa rest ⟨B, c + BLOCK_SIZE⟩).trace.head? =
          some (PutItem.sent (B + 1) (readChunk file (c + BLOCK_SIZE)) sa) := by
  intro file sa B c ev rest hlen hB hrej
  have hacc := acceptsAck_eq_false B ev hrej
  constructor
  · rw [putRun_cons_full file sa ev rest ⟨B, c⟩ hB (by simp [hlen])]
    simp [hacc, hlen]
  · exact putRun_trace_head file sa rest ⟨B, c + BLOCK_SIZE⟩ hB

set_option maxRecDepth 8192 in
theorem put_no_retransmit_reads_next_chunk_witness :
    (readChunk file1024 0).length = BLOCK_SIZE ∧ (0 : Nat) + 1 ≤ 32767 ∧
    rejectedReply 0 InEvent.timeout ∧
    (putRun file1024 6 [InEvent.timeout] ⟨0, 0⟩ =
        ⟨(putRun file1024 6 [] ⟨0, BLOCK_SIZE⟩).result,
          PutItem.sent 1 (readChunk file1024 0) 6 :: evItem InEvent.timeout ::
            (putRun file1024 6 [] ⟨0, BLOCK_SIZE⟩).trace⟩
      ∧ (putRun file1024 6 [] ⟨0, BLOCK_SIZE⟩).trace.head? =
          some (PutItem.sent 1 (readChunk file1024 BLOCK_SIZE) 6)) := by
  refine ⟨by decide, by decide, trivial, ?_⟩
  have h := put_no_retransmit_reads_next_chunk file1024 6 0 0 InEvent.timeout []
    (by decide) (by decide) trivial
  simpa using h

/-- C7: both sessions are lock-step.  The ACK numbers sent in any download
run form the exact sequence 1, 2, ..., k with no gaps and no repeats, and
in any upload run every DATA packet numbered n + 1 with n at least 1 is
preceded in the trace by a received ACK-opcode packet numbered n. -/
theorem lockstep_block_numbers :
    (∀ (initial : Option (List Nat)) (events : List InEvent),
        ∃ k, ackNums (get_file initial events).trace = List.range' 1 k)
  ∧ (∀ (file : List Nat) (sa : Addr) (events : List InEvent),
        lockstepCheck [] (put_file file sa events).trace = true) := by
  constructor
  · intro initial events
    exact getRun_ackNums events 1 []
  · intro file sa events
    exact putRun_lockstep file sa events ⟨0, 0⟩ [] (Or.inl rfl)

/-- C8 counterexample: block numbers do not wrap at 65536.  Encoding
already fails at 32768 (signed 16-bit pack), for ACKs and DATA alike, so a
download of 32768 blocks crashes on the ACK of block 32768 instead of ever
wrapping; 32767 is the last encodable block number. -/
theorem encoding_fails_at_32768 :
    ack_message 32768 = none ∧ data_message 32768 full512 = none ∧
    ack_message 32767 = some [0, 4, 127, 255] ∧
    (get_file none
        (fullEvents 0 1 32767 ++ [InEvent.pkt (dataPacket 32768 full512) 0])).result =
      GetResult.crashed := by
  refine ⟨by decide, ?_, by decide, ?_⟩
  · rw [data_message_eq_none_iff]
    omega
  unfold get_file
  obtain ⟨w', hw'⟩ :=
    getRun_fullEvents 0 32767 1 [] [InEvent.pkt (dataPacket 32768 full512) 0] (by omega)
  rw [hw', show (1 : Nat) + 32767 = 32768 from rfl,
    getRun_block_32768 w' full512 0 [] (by rw [full512_length])]

/-- C8 amended: block numbers start at 1 and advance by exactly one per
accepted block as unbounded integers, with no modular reduction anywhere;
the encoder accepts only numbers up to 32767 (struct format h is signed
16-bit) and raises beyond that, so no transfer can reach the 65536 wrap the
claim describes. -/
theorem block_numbers_no_wrap :
    (∀ n : Nat, ack_message n = none ↔ 32767 < n)
  ∧ (∀ (n : Nat) (p : List Nat), data_message n p = none ↔ 32767 < n)
  ∧ (∀ (e : Nat) (w : List Nat) (src : Addr) (rest : List InEvent), e ≤ 32767 →
      getRun (InEvent.pkt (dataPacket e full512) src :: rest) ⟨e, w⟩ =
        ⟨(getRun rest ⟨e + 1, w ++ full512⟩).result,
          (getRun rest ⟨e + 1, w ++ full512⟩).file,
          GetItem.wrote full512 :: GetItem.sentAck e src ::
            (getRun rest ⟨e + 1, w ++ full512⟩).trace⟩) := by
  refine ⟨ack_message_eq_none_iff, data_message_eq_none_iff, ?_⟩
  intro e w src rest he
  rw [getRun_cons_next rest (getStep_full_matched e w src he)]
  rfl

theorem block_numbers_no_wrap_witness :
    (1 : Nat) ≤ 32767 ∧
    getRun [InEvent.pkt (dataPacket 1 full512) 2] ⟨1, []⟩ =
      ⟨(getRun [] ⟨1 + 1, [] ++ full512⟩).result,
        (getRun [] ⟨1 + 1, [] ++ full512⟩).file,
        GetItem.wrote full512 :: GetItem.sentAck 1 2 ::
          (getRun [] ⟨1 + 1, [] ++ full512⟩).trace⟩ :=
  ⟨by decide, block_numbers_no_wrap.2.2 1 [] 2 [] (by decide)⟩

/-- C9 counterexample: a packet with the unrecognized opcode 9 is silently
skipped by the download loop — no exception, no termination — and the
session then completes normally on the next DATA packet. -/
theorem unknown_opcode_then_completion :
    get_file none [InEvent.pkt [0, 9, 9, 9] 4, InEvent.pkt (dataPacket 1 [5]) 4] =
      ⟨GetResult.completed, some [5], [GetItem.wrote [5], GetItem.sentAck 1 4]⟩ := rfl

/-- C9 amended: there is no MalformedPacketError anywhere and decoding
never fails: int.from_bytes reads a missing or partial field as the number
formed by whatever bytes are present (0 when none) and a missing payload as
empty, so every received packet flows through the normal branches.  The
download loop silently ignores any packet whose decoded opcode is neither
DATA nor ERROR (the state and the rest of the run are unchanged), and the
upload loop treats any reply whose opcode is not ACK as an unexpected ACK:
it logs and continues with the next chunk rather than terminating.  Packets
too short for their declared shape are not rejected either, but acted on as
decoded: a bare two-byte ERROR header is handled as ERROR code 0, which
terminates the download and deletes the file, and a one-byte DATA opcode is
handled as an empty final block, which ends the download as completed
whenever its decoded block number 0 does not match the expected one. -/
theorem unrecognized_opcode_not_fatal :
    (∀ (raw : List Nat) (src : Addr) (st : GetState) (rest : List InEvent),
        decodeOp raw ≠ OPCODE_DATA → decodeOp raw ≠ OPCODE_ERROR →
        getRun (InEvent.pkt raw src :: rest) st = getRun rest st)
  ∧ (∀ (file : List Nat) (sa : Addr) (B c : Nat) (raw : List Nat) (src : Addr)
        (rest : List InEvent),
        decodeOp raw ≠ OPCODE_ACK → (readChunk file c).length = BLOCK_SIZE →
        B + 1 ≤ 32767 →
        (putRun file sa (InEvent.pkt raw src :: rest) ⟨B, c⟩).result =
          (putRun file sa rest ⟨B, c + BLOCK_SIZE⟩).result)
  ∧ (∀ (src : Addr) (st : GetState) (rest : List InEvent),
        getRun (InEvent.pkt [0, 5] src :: rest) st =
          ⟨GetResult.errorTermination 0, none,
            [GetItem.printedError 0 "Not defined, see error message (if any)."]⟩)
  ∧ (∀ (src : Addr) (st : GetState) (rest : List InEvent), st.expected ≠ 0 →
        getRun (InEvent.pkt [3] src :: rest) st =
          ⟨GetResult.completed, some st.written, []⟩) := by
  refine ⟨?_, ?_, ?_, ?_⟩
  · intro raw src st rest hop herr
    have hstep : getStep st (InEvent.pkt raw src) = ([], GetCont.next st) := by
      simp [getStep, hop, herr]
    rw [getRun_cons_next rest hstep]
    simp
  · intro file sa B c raw src rest hop hlen hB
    have hacc : acceptsAck B (InEvent.pkt raw src) = false := by
      simp [acceptsAck, hop]
    rw [putRun_cons_full file sa _ rest ⟨B, c⟩ hB (by simp [hlen])]
    simp [hacc, hlen]
  · intro src st rest
    exact getRun_cons_stop rest rfl
  · intro src st rest h
    have hne : ¬(0 = st.expected) := fun hh => h hh.symm
    have hop : decodeOp [3] = OPCODE_DATA := rfl
    have hbn : decodeNum [3] = 0 := rfl
    have hpl : payloadOf [3] = ([] : List Nat) := rfl
    have hstep : getStep st (InEvent.pkt [3] src) =
        ([], GetCont.stop GetResult.completed (some st.written)) := by
      simp [getStep, hop, hbn, hpl, hne, BLOCK_SIZE]
    exact getRun_cons_stop rest hstep

theorem unrecognized_opcode_not_fatal_witness :
    decodeOp [0, 9, 9, 9] ≠ OPCODE_DATA ∧ decodeOp [0, 9, 9, 9] ≠ OPCODE_ERROR ∧
    getRun [InEvent.pkt [0, 9, 9, 9] 4] ⟨1, []⟩ = getRun [] ⟨1, []⟩ ∧
    (GetState.expected ⟨1, []⟩ ≠ 0 ∧
      getRun [InEvent.pkt [3] 4] ⟨1, []⟩ =
        ⟨GetResult.completed, some [], []⟩) :=
  ⟨by decide, by decide,
    unrecognized_opcode_not_fatal.1 [0, 9, 9, 9] 4 ⟨1, []⟩ [] (by decide) (by decide),
    by decide,
    unrecognized_opcode_not_fatal.2.2.2 4 ⟨1, []⟩ [] (by decide)⟩

/-- C10 counterexample: with a pre-existing local file of contents 1, 2, 3,
a download that is answered by an ERROR packet with the undefined code 8
crashes without deleting the local file: the file survives, but already
truncated to empty — so an ERROR packet does not always delete the file,
while the prior contents are destroyed regardless. -/
theorem error_without_deletion_leaves_truncated_file :
    (get_file (some [1, 2, 3]) [InEvent.pkt (errPacket 8) 0]).file = some [] ∧
    (get_file (some [1, 2, 3]) [InEvent.pkt (errPacket 8) 0]).result =
      GetResult.crashed :=
  ⟨rfl, rfl⟩

/-- C10 amended: get_file opens the local file in mode wb right after the
RRQ, before any reply, so the run and the final file state are completely
independent of the pre-existing contents (they are destroyed by the
truncation); on a timeout, or on an ERROR packet with a defined code, the
file is moreover deleted. -/
theorem download_truncates_and_deletes_on_failure :
    (∀ (i i2 : Option (List Nat)) (events : List InEvent),
        get_file i events = get_file i2 events)
  ∧ (∀ (i : Option (List Nat)) (events : List InEvent),
        ((get_file i events).result = GetResult.timeoutExit →
          (get_file i events).file = none)
      ∧ ∀ c, (get_file i events).result = GetResult.errorTermination c →
          (get_file i events).file = none) := by
  constructor
  · intro i i2 events
    rfl
  · intro i events
    constructor
    · intro h
      exact getRun_failure_file_none events ⟨1, []⟩ (Or.inl h)
    · intro c h
      exact getRun_failure_file_none events ⟨1, []⟩ (Or.inr ⟨c, h⟩)

theorem download_truncates_and_deletes_on_failure_witness :
    (get_file (some [1]) [InEvent.timeout]).result = GetResult.timeoutExit ∧
    (get_file (some [1]) [InEvent.timeout]).file = none :=
  ⟨rfl, (download_truncates_and_deletes_on_failure.2 (some [1]) [InEvent.timeout]).1 rfl⟩
